import Mathlib

/-
  Verification development for the janee credential broker.

  The definitions below are a shallow embedding of the TypeScript sources:
    - src/core/sessions.ts            (SessionManager)
    - src/core/mcp-server.ts          (parseTTL, createMCPServer CallTool handler)
    - src/cli/commands/serve.ts       (serveMCPCommand signing branches)
    - src/providers/filesystem.ts     (FilesystemProvider.resolvePath / getSecret)
    - src/providers/registry.ts       (resolveSecret)
    - src/providers/types.ts          (parseProviderURI)
  JavaScript strings are modelled as Lean String values; Date values as
  milliseconds since the epoch (Nat); JS Map objects as association lists in
  insertion order; thrown exceptions as Except.error.  External library
  primitives (Node crypto HMAC, the system clock) are universally quantified
  parameters.
-/

namespace Janee

/-! ## Basic string helpers (structural, kernel-evaluable) -/

/-- Digits of a decimal numeral folded to a Nat, as parseInt does on a
digit-only string. -/
def digitsToNat (cs : List Char) : Nat :=
  cs.foldl (fun acc c => acc * 10 + (c.toNat - '0'.toNat)) 0

/-- JS truthiness test for an optional string: `undefined` and the empty
string are falsy (the `!reason` check in the CallTool handler). -/
def jsFalsy : Option String → Bool
  | none => true
  | some s => s.data.isEmpty

/-! ## parseTTL (src/core/mcp-server.ts lines 46-61)

`ttl.match(/^(\d+)([smhd])$/)`; on failure the source throws
`Invalid TTL format: ...`; here the parse is an Option and the handler
below raises the error message. -/

def ttlMultiplier : Char → Option Nat
  | 's' => some 1
  | 'm' => some 60
  | 'h' => some 3600
  | 'd' => some 86400
  | _ => none

def parseTTL (ttl : String) : Option Nat :=
  let cs := ttl.data
  let digits := cs.takeWhile (·.isDigit)
  let rest := cs.drop digits.length
  if digits.isEmpty then none
  else
    match rest with
    | [u] =>
      match ttlMultiplier u with
      | some mult => some (digitsToNat digits * mult)
      | none => none
    | _ => none

/-! ## Sessions (src/core/sessions.ts) -/

structure Session where
  id : String
  capability : String
  service : String
  reason : Option String
  createdAt : Nat
  expiresAt : Nat
  revoked : Bool
deriving DecidableEq

/-- The SessionManager `sessions` Map, id to record, in insertion order. -/
abbrev SessionStore := List (String × Session)

/-- Map.get: first (unique) binding of the key. -/
def storeGet (store : SessionStore) (id : String) : Option Session :=
  List.lookup id store

/-- Map.set: replace in place if present, else append. -/
def storeSet : SessionStore → String → Session → SessionStore
  | [], id, s => [(id, s)]
  | (k, v) :: rest, id, s =>
    if k == id then (id, s) :: rest else (k, v) :: storeSet rest id s

/-- Map.delete. -/
def storeDelete (store : SessionStore) (id : String) : SessionStore :=
  store.filter (fun p => !(p.1 == id))

/-- SessionManager.createSession (lines 317-346).  The fresh token from
generateToken and the current clock are inputs; the setTimeout cleanup is
time-driven deletion and is not part of the per-call state change. -/
def createSession (store : SessionStore) (freshId : String) (now : Nat)
    (capability service : String) (ttlSeconds : Nat) (reason : Option String) :
    Session × SessionStore :=
  let session : Session :=
    { id := freshId, capability := capability, service := service,
      reason := reason, createdAt := now,
      expiresAt := now + ttlSeconds * 1000, revoked := false }
  (session, storeSet store freshId session)

/-- SessionManager.getSession (lines 351-365): returns the record unless it
is absent, revoked, or `new Date() > session.expiresAt`; a revoked or
strictly expired record is deleted. -/
def getSession (store : SessionStore) (now : Nat) (sessionId : String) :
    Option Session × SessionStore :=
  match storeGet store sessionId with
  | none => (none, store)
  | some session =>
    if session.revoked || decide (now > session.expiresAt) then
      (none, storeDelete store sessionId)
    else
      (some session, store)

/-- SessionManager.listSessions (lines 385-399): keeps entries with
`!revoked && now <= expiresAt`, deleting the rest. -/
def listSessions (store : SessionStore) (now : Nat) :
    List Session × SessionStore :=
  let active := store.filter (fun p => !p.2.revoked && decide (now ≤ p.2.expiresAt))
  (active.map Prod.snd, active)

/-! ## MCP server data (src/core/mcp-server.ts) -/

structure Capability where
  name : String
  service : String
  ttl : String
  autoApprove : Bool
  requiresReason : Bool
deriving DecidableEq

structure AuthConfig where
  type : String
  key : Option String
  apiKey : Option String
  apiSecret : Option String
  passphrase : Option String
  headers : List (String × String)
deriving DecidableEq

structure ServiceConfig where
  baseUrl : String
  auth : AuthConfig
deriving DecidableEq

structure ProxyRequest where
  service : String
  path : String
  method : String
  headers : List (String × String)
  body : Option String
deriving DecidableEq

structure ProxyResponse where
  statusCode : Nat
  body : String
deriving DecidableEq

/-- The fields of the `list_services` reply objects. -/
structure CapInfo where
  name : String
  service : String
  ttl : String
  autoApprove : Bool
  requiresReason : Bool
deriving DecidableEq

/-- The JSON object placed in the single text content item of a CallTool
reply, by shape: the three success objects of the handler and the
catch-all error object. -/
inductive ReplyPayload where
  | services (caps : List CapInfo)
  | execResult (status : Nat) (body : String)
  | httpAccess (url : String) (authorization : String) (expiresAtMs : Nat)
  | errorMsg (msg : String)
deriving DecidableEq

structure ToolResult where
  payload : ReplyPayload
  isError : Bool
deriving DecidableEq

structure ServerOptions where
  capabilities : List Capability
  services : List (String × ServiceConfig)
  proxyUrl : String

structure ToolArgs where
  capability : String
  method : String
  path : String
  body : Option String
  headers : List (String × String)
  reason : Option String

/-- The body of the CallTool request handler (src/core/mcp-server.ts lines
158-279) before the catch wrapper: the Except carries a thrown message, and
the store reflects mutations made before the throw. -/
def callToolInner (opts : ServerOptions)
    (upstream : Session → ProxyRequest → Except String ProxyResponse)
    (store : SessionStore) (now : Nat) (freshId : String)
    (toolName : String) (args : ToolArgs) :
    Except String ReplyPayload × SessionStore :=
  if toolName = "list_services" then
    (.ok (.services (opts.capabilities.map fun c =>
      { name := c.name, service := c.service, ttl := c.ttl,
        autoApprove := c.autoApprove, requiresReason := c.requiresReason })), store)
  else if toolName = "execute" then
    match opts.capabilities.find? (fun c => c.name == args.capability) with
    | none => (.error ("Unknown capability: " ++ args.capability), store)
    | some cap =>
      if cap.requiresReason && jsFalsy args.reason then
        (.error ("Capability \"" ++ args.capability ++ "\" requires a reason"), store)
      else
        match parseTTL cap.ttl with
        | none => (.error ("Invalid TTL format: " ++ cap.ttl), store)
        | some ttlSeconds =>
          let created := createSession store freshId now cap.name cap.service
            ttlSeconds args.reason
          let proxyReq : ProxyRequest :=
            { service := cap.service, path := args.path, method := args.method,
              headers := args.headers, body := args.body }
          match upstream created.1 proxyReq with
          | .error e => (.error e, created.2)
          | .ok resp => (.ok (.execResult resp.statusCode resp.body), created.2)
  else if toolName = "get_http_access" then
    match opts.capabilities.find? (fun c => c.name == args.capability) with
    | none => (.error ("Unknown capability: " ++ args.capability), store)
    | some cap =>
      if cap.requiresReason && jsFalsy args.reason then
        (.error ("Capability \"" ++ args.capability ++ "\" requires a reason"), store)
      else
        match parseTTL cap.ttl with
        | none => (.error ("Invalid TTL format: " ++ cap.ttl), store)
        | some ttlSeconds =>
          let created := createSession store freshId now cap.name cap.service
            ttlSeconds args.reason
          (.ok (.httpAccess (opts.proxyUrl ++ "/" ++ cap.service)
            ("Bearer " ++ created.1.id) created.1.expiresAt), created.2)
  else
    (.error ("Unknown tool: " ++ toolName), store)

/-- The CallTool handler with its catch wrapper (lines 268-278): a thrown
error becomes a text content item holding the error object, flagged
isError; the handler itself always resolves. -/
def callToolHandler (opts : ServerOptions)
    (upstream : Session → ProxyRequest → Except String ProxyResponse)
    (store : SessionStore) (now : Nat) (freshId : String)
    (toolName : String) (args : ToolArgs) : ToolResult × SessionStore :=
  match callToolInner opts upstream store now freshId toolName args with
  | (.ok p, st) => ({ payload := p, isError := false }, st)
  | (.error e, st) => ({ payload := .errorMsg e, isError := true }, st)

/-! ## Byte-string encodings (Node Buffer digest encodings)

The HMAC-SHA256 primitive itself is Node library code external to this
repository; it appears below as a universally quantified function from key
and message to a byte sequence.  The hex and base64 encodings selected by
`.digest(\x7b...\x7d)` are fixed deterministic codecs, embedded here. -/

def hexDigitChar (n : Nat) : Char :=
  if n < 10 then Char.ofNat ('0'.toNat + n) else Char.ofNat ('a'.toNat + (n - 10))

/-- Lowercase hex of a byte sequence, as Buffer.toString with encoding hex. -/
def hexEncode (bytes : List Nat) : String :=
  String.mk (bytes.foldr (fun b acc => hexDigitChar (b / 16 % 16) :: hexDigitChar (b % 16) :: acc) [])

def base64Char (n : Nat) : Char :=
  if n < 26 then Char.ofNat ('A'.toNat + n)
  else if n < 52 then Char.ofNat ('a'.toNat + (n - 26))
  else if n < 62 then Char.ofNat ('0'.toNat + (n - 52))
  else if n = 62 then '+'
  else '/'

/-- Standard base64 with padding, as Buffer.toString with encoding base64. -/
def base64Encode : List Nat → String
  | [] => ""
  | [a] =>
    String.mk [base64Char (a / 4 % 64), base64Char (a % 4 * 16), '=', '=']
  | [a, b] =>
    String.mk [base64Char (a / 4 % 64), base64Char (a % 4 * 16 + b / 16 % 16),
      base64Char (b % 16 * 4), '=']
  | a :: b :: c :: rest =>
    String.mk [base64Char (a / 4 % 64), base64Char (a % 4 * 16 + b / 16 % 16),
      base64Char (b % 16 * 4 + c / 64 % 4), base64Char (c % 64)] ++ base64Encode rest

/-- method.toUpperCase() on a JS string of ASCII characters. -/
def jsToUpper (s : String) : String :=
  String.mk (s.data.map Char.toUpper)

/-- The type of the external Node primitive
createHmac(sha256, key).update(message).digest(): key and message to the
32 raw digest bytes. -/
abbrev HmacFn := String → String → List Nat

/-! ## hmac-bybit signing branch (src/cli/commands/serve.ts lines 394-415)

In serveMCPCommand the timestamp is Date.now().toString() and recvWindow is
the constant "5000"; both are parameters here, as in the signBybit
conformance tests (src/core/signing.test.ts). -/

def signBybitHeaderList (hmacSha256 : HmacFn)
    (apiKey apiSecret timestamp recvWindow method queryString : String)
    (body : Option String) : List (String × String) :=
  let methodU := jsToUpper method
  let payloadData := if methodU = "POST" || methodU = "PUT" then body.getD "" else queryString
  let signPayload := timestamp ++ apiKey ++ recvWindow ++ payloadData
  let signature := hexEncode (hmacSha256 apiSecret signPayload)
  [("X-BAPI-API-KEY", apiKey), ("X-BAPI-TIMESTAMP", timestamp),
   ("X-BAPI-SIGN", signature), ("X-BAPI-RECV-WINDOW", recvWindow)]

/-! ## hmac-okx signing branch (src/cli/commands/serve.ts lines 416-433)

The source computes
`timestamp = new Date().toISOString().slice(0, -1) + "Z"` and
`requestPath = "/" + reqPath + (targetUrl.search || "")` where reqPath is
request.path without its leading slash and search is the query string with
its leading question mark, or empty.  isoNow stands for the
Date.toISOString() library output. -/

/-- slice(0, -1) on a JS string: all but the last character. -/
def jsSliceDropLast (s : String) : String :=
  String.mk s.data.dropLast

def signOKXHeaderList (hmacSha256 : HmacFn)
    (apiKey apiSecret passphrase isoNow method reqPath search : String)
    (body : Option String) : List (String × String) :=
  let timestamp := jsSliceDropLast isoNow ++ "Z"
  let methodU := jsToUpper method
  let requestPath := "/" ++ reqPath ++ search
  let signPayload := timestamp ++ methodU ++ requestPath ++ body.getD ""
  let signature := base64Encode (hmacSha256 apiSecret signPayload)
  [("OK-ACCESS-KEY", apiKey), ("OK-ACCESS-SIGN", signature),
   ("OK-ACCESS-TIMESTAMP", timestamp), ("OK-ACCESS-PASSPHRASE", passphrase)]

/-- Recognizer for the JS Date.toISOString() output shape:
four digit year, dash, two digit month, dash, two digit day, letter T,
two digit hour, colon, two digit minute, colon, two digit second, dot,
three digit milliseconds, letter Z. -/
def isIsoMillisZ (s : String) : Bool :=
  match s.data with
  | [y1, y2, y3, y4, d1, o1, o2, d2, a1, a2, t, h1, h2, c1, n1, n2, c2, e1, e2, dt, f1, f2, f3, z] =>
    y1.isDigit && y2.isDigit && y3.isDigit && y4.isDigit && d1 == '-' &&
    o1.isDigit && o2.isDigit && d2 == '-' && a1.isDigit && a2.isDigit && t == 'T' &&
    h1.isDigit && h2.isDigit && c1 == ':' && n1.isDigit && n2.isDigit && c2 == ':' &&
    e1.isDigit && e2.isDigit && dt == '.' && f1.isDigit && f2.isDigit && f3.isDigit && z == 'Z'
  | _ => false

/-! ## Posix path primitives (Node path module, posix flavor)

FilesystemProvider.resolvePath (src/providers/filesystem.ts lines 142-146)
is `path.join(this.secretsDir, path.normalize(secretPath).replace(/^(\.\.[\/\\])+/, ""))`.
The Node primitives are embedded below over strings of slash-separated
segments. -/

/-- Split a character list at every slash, keeping empty segments. -/
def splitSlashAux : List Char → List Char → List String
  | [], cur => [String.mk cur.reverse]
  | '/' :: rest, cur => String.mk cur.reverse :: splitSlashAux rest []
  | c :: rest, cur => splitSlashAux rest (c :: cur)

def splitSlash (s : String) : List String :=
  splitSlashAux s.data []

/-- One step of Node normalizeString over the resolved-segment stack (head
is the most recent segment): empty and dot segments are skipped; dot-dot
pops a poppable segment, otherwise accumulates only when above-root
segments are allowed (relative paths). -/
def normStep (allowAboveRoot : Bool) (stack : List String) (seg : String) : List String :=
  if seg = "" || seg = "." then stack
  else if seg = ".." then
    match stack with
    | top :: rest =>
      if top = ".." then (if allowAboveRoot then ".." :: stack else stack)
      else rest
    | [] => if allowAboveRoot then [".."] else []
  else seg :: stack

def normalizeSegs (p : String) (allowAboveRoot : Bool) : String :=
  String.intercalate "/" (((splitSlash p).foldl (normStep allowAboveRoot) []).reverse)

/-- Node path.posix.normalize. -/
def posixNormalize (p : String) : String :=
  if p.data.isEmpty then "."
  else
    let isAbs := p.data.head? = some '/'
    let trailingSep := p.data.getLast? = some '/'
    let core := normalizeSegs p (!isAbs)
    if core.data.isEmpty then
      if isAbs then "/" else if trailingSep then "./" else "."
    else
      let core2 := if trailingSep then core ++ "/" else core
      if isAbs then "/" ++ core2 else core2

/-- Node path.posix.join restricted to two arguments: drop empty parts,
glue with a slash, normalize; an empty glue result yields a dot. -/
def posixJoin (a b : String) : String :=
  let joined := if a.data.isEmpty then b else if b.data.isEmpty then a else a ++ "/" ++ b
  if joined.data.isEmpty then "." else posixNormalize joined

/-- The regex replace of `/^(\.\.[\/\\])+/` with the empty string: greedily
strip every leading dot-dot-separator triple. -/
def stripTraversalAux : List Char → List Char
  | '.' :: '.' :: '/' :: rest => stripTraversalAux rest
  | '.' :: '.' :: '\\' :: rest => stripTraversalAux rest
  | l => l

def stripTraversal (s : String) : String :=
  String.mk (stripTraversalAux s.data)

/-- FilesystemProvider.resolvePath (src/providers/filesystem.ts lines
142-146). -/
def resolvePath (secretsDir secretPath : String) : String :=
  let normalized := stripTraversal (posixNormalize secretPath)
  posixJoin secretsDir normalized

/-- A path lies inside a root directory: it is the root itself or extends
it past a slash. -/
def withinRoot (root p : String) : Bool :=
  p == root || List.isPrefixOf (root ++ "/").data p.data

/-! ## FilesystemProvider.getSecret (src/providers/filesystem.ts lines 52-69)

The filesystem contents and the AES-GCM decryptSecret primitive
(src/core/crypto.ts, external to the provider) are inputs; readFileSync of
an absent path is the existsSync-guarded not-found branch. -/

structure FsState where
  name : String
  secretsDir : String
  masterKey : String
  initialized : Bool
  files : List (String × String)

/-- ASCII whitespace removed by the JS String.prototype.trim call on the
file contents. -/
def isJsSpace (c : Char) : Bool :=
  c == ' ' || c == '\t' || c == '\n' || c == '\r' || c == Char.ofNat 11 || c == Char.ofNat 12

def jsTrim (s : String) : String :=
  String.mk (((s.data.dropWhile isJsSpace).reverse.dropWhile isJsSpace).reverse)

def fsGetSecret (decryptSecret : String → String → Except String String)
    (st : FsState) (secretPath : String) : Except String (Option String) :=
  if !st.initialized then
    .error ("FilesystemProvider \"" ++ st.name ++ "\": not initialized. Call initialize() first.")
  else
    let filePath := resolvePath st.secretsDir secretPath
    match List.lookup filePath st.files with
    | none => .ok none
    | some raw =>
      match decryptSecret (jsTrim raw) st.masterKey with
      | .ok v => .ok (some v)
      | .error e =>
        .error ("FilesystemProvider \"" ++ st.name ++ "\": failed to decrypt \"" ++
          secretPath ++ "\": " ++ e)

/-! ## Provider registry (src/providers/types.ts, src/providers/registry.ts) -/

/-- The line terminators that the regex dot class refuses to match. -/
def isJsLineTerm (c : Char) : Bool :=
  c == Char.ofNat 10 || c == Char.ofNat 13 || c == Char.ofNat 0x2028 || c == Char.ofNat 0x2029

def isSchemeTailChar (c : Char) : Bool :=
  c.isAlpha || c.isDigit || c == '_' || c == '-'

/-- parseProviderURI (src/providers/types.ts lines 91-97): match against
`/^([a-zA-Z][a-zA-Z0-9_-]*):\/\/(.+)$/`; on failure the provider is null
and the path is the whole input. -/
def parseProviderURI (uri : String) : Option String × String :=
  let cs := uri.data
  let scheme := cs.takeWhile (fun c => !(c == ':'))
  let rest := cs.drop scheme.length
  match rest with
  | ':' :: '/' :: '/' :: path =>
    if !scheme.isEmpty && (scheme.head?.elim false Char.isAlpha) &&
        scheme.all isSchemeTailChar &&
        !path.isEmpty && path.all (fun c => !isJsLineTerm c) then
      (some (String.mk scheme), String.mk path)
    else
      (none, uri)
  | _ => (none, uri)

/-- A registered provider instance, by its getSecret behavior. -/
abbrev SecretFn := String → Except String (Option String)

/-- resolveSecret (src/providers/registry.ts lines 64-80) over the
instances map. -/
def resolveSecret (instances : List (String × SecretFn)) (uri : String)
    (defaultProvider : String := "local") : Except String (Option String) :=
  let parsed := parseProviderURI uri
  let name := parsed.1.getD defaultProvider
  match List.lookup name instances with
  | none =>
    .error ("Provider \"" ++ name ++ "\" not found. Available providers: " ++
      String.intercalate ", " (instances.map Prod.fst))
  | some getS => getS parsed.2

/-! ## Policy engine (modelled from the spec)

The rules-aware execute handler and the pattern matching engine
(src/core/rules.ts and the rules branch of src/core/mcp-server.ts) are
absent from the reviewed sources; the spec fixes their contract in
sections 4.3 and 9. -/

inductive Verdict where
  | allow
  | deny
deriving DecidableEq

/-- Modelled from the spec: a Rule is an HTTP method pattern (exact or
wildcard) and a glob-style path pattern, tagged allow or deny (section 3). -/
structure Rule where
  methodPat : String
  pathPat : String
  effect : Verdict
deriving DecidableEq

/-- Modelled from the spec: a path pattern matches where a trailing
wildcard segment matches any remaining suffix; otherwise exactly
(section 4.3). -/
def pathPatMatches (pat path : String) : Bool :=
  match pat.data.getLast? with
  | some '*' => List.isPrefixOf pat.data.dropLast path.data
  | _ => pat == path

/-- Modelled from the spec: a rule matches if its method pattern equals the
candidate method case-insensitively or is a wildcard, and its path pattern
matches the candidate path (section 4.3). -/
def ruleMatches (r : Rule) (method path : String) : Bool :=
  (r.methodPat == "*" || jsToUpper r.methodPat == jsToUpper method) &&
  pathPatMatches r.pathPat path

/-- Modelled from the spec: evaluate rules in declared order, first
matching rule wins, no match means deny (section 4.3). -/
def evaluateRules (rules : List Rule) (method path : String) : Verdict :=
  match rules.find? (fun r => ruleMatches r method path) with
  | some r => r.effect
  | none => .deny

structure PolicyExecOutcome where
  verdict : Verdict
  attempted : Bool
  response : Option ProxyResponse
deriving DecidableEq

/-- Modelled from the spec: the Dispatcher consults the policy verdict
before the network step; denials are terminal and the network call is not
attempted (sections 4.3 and 4.6). -/
def executeWithPolicy (rules : List Rule) (method path : String)
    (call : Unit → ProxyResponse) : PolicyExecOutcome :=
  match evaluateRules rules method path with
  | .deny => { verdict := .deny, attempted := false, response := none }
  | .allow => { verdict := .allow, attempted := true, response := some (call ()) }

/-! ## Helper lemmas -/

/-- find? returns exactly the first list element satisfying the predicate. -/
lemma find?_eq_some_first {α : Type} (p : α → Bool) :
    ∀ (l : List α) (r : α), l.find? p = some r ↔
      ∃ pre post, l = pre ++ r :: post ∧ (∀ x ∈ pre, p x = false) ∧ p r = true := by
  intro l r
  induction l with
  | nil => simp
  | cons a as ih =>
    by_cases hp : p a = true
    · rw [List.find?_cons_of_pos _ hp]
      constructor
      · rintro h
        injection h with h
        subst h
        exact ⟨[], as, rfl, by simp, hp⟩
      · rintro ⟨pre, post, heq, hpre, hr⟩
        cases pre with
        | nil =>
          simp only [List.nil_append, List.cons.injEq] at heq
          rw [heq.1]
        | cons b bs =>
          simp only [List.cons_append, List.cons.injEq] at heq
          have hb := hpre b (by simp)
          rw [heq.1] at hp
          rw [hp] at hb
          cases hb
    · have hp' : p a = false := by
        cases h : p a
        · rfl
        · exact absurd h hp
      rw [List.find?_cons_of_neg _ (by simp [hp'])]
      rw [ih]
      constructor
      · rintro ⟨pre, post, heq, hpre, hr⟩
        refine ⟨a :: pre, post, by rw [heq, List.cons_append], ?_, hr⟩
        intro x hx
        rcases List.mem_cons.mp hx with h | h
        · rw [h]; exact hp'
        · exact hpre x h
      · rintro ⟨pre, post, heq, hpre, hr⟩
        cases pre with
        | nil =>
          simp only [List.nil_append, List.cons.injEq] at heq
          rw [heq.1] at hp'
          rw [hp'] at hr
          cases hr
        | cons b bs =>
          simp only [List.cons_append, List.cons.injEq] at heq
          refine ⟨bs, post, heq.2, ?_, hr⟩
          intro x hx
          exact hpre x (List.mem_cons_of_mem b hx)

/-- A character list whose optional last element is a given character is
its dropLast followed by that character. -/
lemma dropLast_append_getLast?_char (a : Char) :
    ∀ (cs : List Char), cs.getLast? = some a → cs.dropLast ++ [a] = cs := by
  intro cs h
  induction cs with
  | nil => simp at h
  | cons x xs ih =>
    cases hx : xs with
    | nil =>
      subst hx
      simp only [List.getLast?_singleton, Option.some.injEq] at h
      simp [h]
    | cons y ys =>
      subst hx
      rw [List.getLast?_cons_cons] at h
      have := ih h
      rw [List.dropLast_cons₂, List.cons_append, this]

/-- The ok results of the CallTool body are never the error object. -/
lemma callToolInner_ok_not_error (opts : ServerOptions)
    (upstream : Session → ProxyRequest → Except String ProxyResponse)
    (store : SessionStore) (now : Nat) (freshId : String)
    (toolName : String) (args : ToolArgs) (p : ReplyPayload) (st : SessionStore)
    (h : callToolInner opts upstream store now freshId toolName args = (.ok p, st)) :
    ∀ m, p ≠ .errorMsg m := by
  intro m
  unfold callToolInner at h
  simp only [] at h
  repeat' split at h
  all_goals try simp_all
  all_goals (obtain ⟨h1, h2⟩ := h; subst h1; exact fun hc => ReplyPayload.noConfusion hc)

/-! ## Claim theorems -/

/-- C9 counterexample: the TTL string with value zero is accepted by
parseTTL, and the session it creates has expiresAt equal to createdAt, not
strictly greater. -/
theorem c9_zero_ttl_counterexample :
    parseTTL "0s" = some 0 ∧
    (createSession [] "jnee_sess_a" 5 "payments" "stripe" 0 none).1.createdAt = 5 ∧
    (createSession [] "jnee_sess_a" 5 "payments" "stripe" 0 none).1.expiresAt = 5 ∧
    ¬((createSession [] "jnee_sess_a" 5 "payments" "stripe" 0 none).1.expiresAt >
      (createSession [] "jnee_sess_a" 5 "payments" "stripe" 0 none).1.createdAt) := by
  refine ⟨by decide, rfl, rfl, by decide⟩

/-- C9 (amended): for every TTL string the system accepts whose numeric
value is positive, the created session satisfies expiresAt strictly greater
than createdAt; a zero-valued TTL such as 0s yields equality, so in general
only expiresAt greater or equal to createdAt holds. -/
theorem c9_ttl_expiry_amended (store : SessionStore) (freshId : String) (now : Nat)
    (cap svc : String) (reason : Option String) (ttlStr : String) (v : Nat)
    (hp : parseTTL ttlStr = some v) (hv : 1 ≤ v) :
    (createSession store freshId now cap svc v reason).1.expiresAt >
      (createSession store freshId now cap svc v reason).1.createdAt := by
  simp only [createSession]
  omega

theorem c9_ttl_expiry_amended_witness :
    (createSession [] "jnee_sess_b" 7 "payments" "stripe" 1 none).1.expiresAt >
      (createSession [] "jnee_sess_b" 7 "payments" "stripe" 1 none).1.createdAt :=
  c9_ttl_expiry_amended [] "jnee_sess_b" 7 "payments" "stripe" none "1s" 1 (by decide) (by decide)

/-- C4 counterexample: a session looked up exactly at its expiresAt instant
is still returned, although the instant is not strictly before expiry, so
the session is not unusable at the expiry instant. -/
theorem c4_expiry_instant_counterexample :
    (getSession [("a", (⟨"a", "cap", "svc", none, 0, 1000, false⟩ : Session))] 1000 "a").1 =
      some (⟨"a", "cap", "svc", none, 0, 1000, false⟩ : Session) ∧
    ¬((1000 : Nat) < 1000) := by
  exact ⟨by decide, by decide⟩

/-- C4 (amended): getSession returns the record exactly when it is present,
unrevoked, and the current time is at most expiresAt (the record is still
usable at the expiry instant itself); an absent id leaves the store
untouched, and a revoked or strictly expired record is removed and reported
not found, indistinguishable from an absent one. -/
theorem c4_get_session_amended (store : SessionStore) (now : Nat) (id : String) :
    (∀ s : Session, (getSession store now id).1 = some s ↔
        storeGet store id = some s ∧ s.revoked = false ∧ now ≤ s.expiresAt) ∧
    (storeGet store id = none → getSession store now id = (none, store)) ∧
    (∀ s : Session, storeGet store id = some s → (s.revoked = true ∨ s.expiresAt < now) →
        getSession store now id = (none, storeDelete store id)) := by
  refine ⟨?_, ?_, ?_⟩
  · intro s
    constructor
    · intro h
      unfold getSession at h
      split at h
      · simp at h
      · rename_i t hg2
        split at h
        · simp at h
        · rename_i hcond
          simp only [] at h
          injection h with h
          subst h
          refine ⟨hg2, ?_, ?_⟩
          · cases hr : t.revoked
            · rfl
            · exact absurd (by rw [hr]; exact Bool.true_or _) hcond
          · by_contra hlt
            push_neg at hlt
            exact hcond (by simp [hlt])
    · rintro ⟨hg, hsr, hle⟩
      unfold getSession
      rw [hg]
      have hcond : (s.revoked || decide (now > s.expiresAt)) = false := by
        rw [hsr]
        simp
        omega
      simp [hcond]
  · intro hg
    unfold getSession
    rw [hg]
  · intro s hg hcond
    unfold getSession
    rw [hg]
    have hc : (s.revoked || decide (now > s.expiresAt)) = true := by
      rcases hcond with h | h
      · rw [h]
        exact Bool.true_or _
      · have hgt : now > s.expiresAt := h
        simp [hgt]
    simp [hc]

theorem c4_get_session_amended_witness :
    (getSession [("a", (⟨"a", "cap", "svc", none, 0, 10, false⟩ : Session))] 4 "a").1 =
      some (⟨"a", "cap", "svc", none, 0, 10, false⟩ : Session) :=
  ((c4_get_session_amended [("a", (⟨"a", "cap", "svc", none, 0, 10, false⟩ : Session))]
      4 "a").1 _).mpr ⟨by decide, rfl, by decide⟩

/-- C5: the claim is right and resolvePath is wrong: an input consisting of
dot-dot traversal segments without a trailing separator survives both the
normalize step and the anchored regex strip, so the resolved file path
escapes the secrets root, while the traversal input exercised by the
repository test suite happens to stay inside. -/
theorem c5_resolve_path_escapes_root :
    resolvePath "/home/user/.janee/credentials" ".." = "/home/user/.janee" ∧
    withinRoot "/home/user/.janee/credentials"
      (resolvePath "/home/user/.janee/credentials" "..") = false ∧
    resolvePath "/home/user/.janee/credentials" "../.." = "/home/user/.janee" ∧
    withinRoot "/home/user/.janee/credentials"
      (resolvePath "/home/user/.janee/credentials" "../..") = false ∧
    resolvePath "/home/user/.janee/credentials" "../../etc/passwd" =
      "/home/user/.janee/credentials/etc/passwd" := by
  refine ⟨by decide, by decide, by decide, by decide, by decide⟩

/-- Any string of the Date.toISOString() shape ends in the letter Z, and
the slice-off-the-last-character-then-append-Z transformation is the
identity on it. -/
lemma iso_millis_shape (s : String) (h : isIsoMillisZ s = true) :
    jsSliceDropLast s ++ "Z" = s ∧ s.data.getLast? = some 'Z' := by
  obtain ⟨cs⟩ := s
  unfold isIsoMillisZ at h
  split at h
  · rename_i y1 y2 y3 y4 d1 o1 o2 d2 a1 a2 t h1 h2 c1 n1 n2 c2 e1 e2 dt f1 f2 f3 z heq
    have hcs : cs = [y1, y2, y3, y4, d1, o1, o2, d2, a1, a2, t, h1, h2, c1, n1, n2, c2, e1, e2, dt, f1, f2, f3, z] := heq
    subst hcs
    simp only [Bool.and_eq_true, beq_iff_eq] at h
    have hz : z = 'Z' := h.2
    subst hz
    exact ⟨rfl, rfl⟩
  · cases h

/-- C3: under the hmac-bybit scheme the X-BAPI-SIGN header is the
hex-encoded HMAC-SHA256, keyed with the service apiSecret, of
timestamp + apiKey + recvWindow + queryString when the upper-cased method
is GET or DELETE, and of timestamp + apiKey + recvWindow + body (an absent
body becoming the empty string, the query string playing no part) when it
is POST or PUT; methods differing only in case sign identically. -/
theorem c3_bybit_sign_payload (hmacSha256 : HmacFn)
    (apiKey apiSecret timestamp recvWindow queryString : String)
    (body : Option String) (method : String) :
    (jsToUpper method = "GET" ∨ jsToUpper method = "DELETE" →
      List.lookup "X-BAPI-SIGN"
          (signBybitHeaderList hmacSha256 apiKey apiSecret timestamp recvWindow method queryString body) =
        some (hexEncode (hmacSha256 apiSecret (timestamp ++ apiKey ++ recvWindow ++ queryString)))) ∧
    (jsToUpper method = "POST" ∨ jsToUpper method = "PUT" →
      List.lookup "X-BAPI-SIGN"
          (signBybitHeaderList hmacSha256 apiKey apiSecret timestamp recvWindow method queryString body) =
        some (hexEncode (hmacSha256 apiSecret (timestamp ++ apiKey ++ recvWindow ++ body.getD "")))) ∧
    (∀ method2, jsToUpper method = jsToUpper method2 →
      signBybitHeaderList hmacSha256 apiKey apiSecret timestamp recvWindow method queryString body =
        signBybitHeaderList hmacSha256 apiKey apiSecret timestamp recvWindow method2 queryString body) := by
  refine ⟨?_, ?_, ?_⟩
  · intro hm
    rcases hm with h | h <;> simp [signBybitHeaderList, h, List.lookup]
  · intro hm
    rcases hm with h | h <;> simp [signBybitHeaderList, h, List.lookup]
  · intro method2 h
    simp only [signBybitHeaderList, h]

theorem c3_bybit_sign_payload_witness :
    List.lookup "X-BAPI-SIGN"
        (signBybitHeaderList (fun _ _ => [171, 0]) "key1" "sec1" "1700000000000" "5000" "get"
          "symbol=BTCUSDT" none) =
      some (hexEncode ((fun _ _ => ([171, 0] : List Nat)) "sec1"
        ("1700000000000" ++ "key1" ++ "5000" ++ "symbol=BTCUSDT"))) :=
  (c3_bybit_sign_payload (fun _ _ => [171, 0]) "key1" "sec1" "1700000000000" "5000"
    "symbol=BTCUSDT" none "get").1 (Or.inl (by decide))

/-- C8: under the hmac-okx scheme the OK-ACCESS-SIGN header is the
base64-encoded HMAC-SHA256, keyed with the apiSecret, of
timestamp + upper-cased method + requestPath + body where requestPath
carries the query string and an absent body becomes the empty string; the
four OK-ACCESS headers are attached and the emitted timestamp is the
clock's ISO-8601 millisecond string ending in a literal Z. -/
theorem c8_okx_sign_headers (hmacSha256 : HmacFn)
    (apiKey apiSecret passphrase isoNow method reqPath search : String)
    (body : Option String) (hfmt : isIsoMillisZ isoNow = true) :
    List.lookup "OK-ACCESS-TIMESTAMP"
        (signOKXHeaderList hmacSha256 apiKey apiSecret passphrase isoNow method reqPath search body) =
      some isoNow ∧
    isIsoMillisZ isoNow = true ∧
    isoNow.data.getLast? = some 'Z' ∧
    List.lookup "OK-ACCESS-SIGN"
        (signOKXHeaderList hmacSha256 apiKey apiSecret passphrase isoNow method reqPath search body) =
      some (base64Encode (hmacSha256 apiSecret
        (isoNow ++ jsToUpper method ++ ("/" ++ reqPath ++ search) ++ body.getD ""))) ∧
    List.lookup "OK-ACCESS-KEY"
        (signOKXHeaderList hmacSha256 apiKey apiSecret passphrase isoNow method reqPath search body) =
      some apiKey ∧
    List.lookup "OK-ACCESS-PASSPHRASE"
        (signOKXHeaderList hmacSha256 apiKey apiSecret passphrase isoNow method reqPath search body) =
      some passphrase := by
  have hts := (iso_millis_shape isoNow hfmt).1
  refine ⟨?_, hfmt, (iso_millis_shape isoNow hfmt).2, ?_, ?_, ?_⟩ <;>
    simp [signOKXHeaderList, hts, List.lookup]

theorem c8_okx_sign_headers_witness :
    List.lookup "OK-ACCESS-SIGN"
        (signOKXHeaderList (fun _ _ => [1, 2, 250]) "okxkey" "okxsec" "phrase"
          "2024-01-15T10:30:00.000Z" "GET" "api/v5/account/balance" "" none) =
      some (base64Encode ((fun _ _ => ([1, 2, 250] : List Nat)) "okxsec"
        ("2024-01-15T10:30:00.000Z" ++ jsToUpper "GET" ++
          ("/" ++ "api/v5/account/balance" ++ "") ++ ""))) :=
  (c8_okx_sign_headers (fun _ _ => [1, 2, 250]) "okxkey" "okxsec" "phrase"
    "2024-01-15T10:30:00.000Z" "GET" "api/v5/account/balance" "" none
    (by decide)).2.2.2.1

/-- C6: resolution consults exactly the provider named by the scheme of the
reference, or the default provider for a bare path; an unregistered name is
a thrown error and no other provider is consulted; the filesystem provider
propagates an uninitialized state or a decryption failure as a thrown
error, and only an absent secret file yields null. -/
theorem c6_provider_resolution (instances : List (String × SecretFn))
    (uri : String) (d : String) :
    (List.lookup ((parseProviderURI uri).1.getD d) instances = none →
      resolveSecret instances uri d =
        .error ("Provider \"" ++ (parseProviderURI uri).1.getD d ++
          "\" not found. Available providers: " ++
          String.intercalate ", " (instances.map Prod.fst))) ∧
    (∀ f : SecretFn, List.lookup ((parseProviderURI uri).1.getD d) instances = some f →
      resolveSecret instances uri d = f (parseProviderURI uri).2) ∧
    (∀ (instances2 : List (String × SecretFn)) (f : SecretFn),
      List.lookup ((parseProviderURI uri).1.getD d) instances = some f →
      List.lookup ((parseProviderURI uri).1.getD d) instances2 = some f →
      resolveSecret instances2 uri d = resolveSecret instances uri d) ∧
    (∀ (dec : String → String → Except String String) (st : FsState) (p : String),
      st.initialized = false →
      fsGetSecret dec st p =
        .error ("FilesystemProvider \"" ++ st.name ++ "\": not initialized. Call initialize() first.")) ∧
    (∀ (dec : String → String → Except String String) (st : FsState) (p : String),
      st.initialized = true →
      List.lookup (resolvePath st.secretsDir p) st.files = none →
      fsGetSecret dec st p = .ok none) ∧
    (∀ (dec : String → String → Except String String) (st : FsState) (p raw e : String),
      st.initialized = true →
      List.lookup (resolvePath st.secretsDir p) st.files = some raw →
      dec (jsTrim raw) st.masterKey = .error e →
      fsGetSecret dec st p =
        .error ("FilesystemProvider \"" ++ st.name ++ "\": failed to decrypt \"" ++ p ++ "\": " ++ e)) ∧
    (∀ (dec : String → String → Except String String) (st : FsState) (p raw v : String),
      st.initialized = true →
      List.lookup (resolvePath st.secretsDir p) st.files = some raw →
      dec (jsTrim raw) st.masterKey = .ok v →
      fsGetSecret dec st p = .ok (some v)) := by
  refine ⟨?_, ?_, ?_, ?_, ?_, ?_, ?_⟩
  · intro hnone
    simp [resolveSecret, hnone]
  · intro f hf
    simp [resolveSecret, hf]
  · intro instances2 f hf hf2
    simp [resolveSecret, hf, hf2]
  · intro dec st p hinit
    simp [fsGetSecret, hinit]
  · intro dec st p hinit hnone
    simp [fsGetSecret, hinit, hnone]
  · intro dec st p raw e hinit hraw hdec
    simp [fsGetSecret, hinit, hraw, hdec]
  · intro dec st p raw v hinit hraw hdec
    simp [fsGetSecret, hinit, hraw, hdec]

theorem c6_provider_resolution_witness :
    resolveSecret [("env", fun p => Except.ok (some p))] "env://STRIPE_API_KEY" "local" =
      (fun p => Except.ok (some p) : SecretFn) (parseProviderURI "env://STRIPE_API_KEY").2 :=
  (c6_provider_resolution [("env", fun p => Except.ok (some p))] "env://STRIPE_API_KEY"
    "local").2.1 (fun p => Except.ok (some p)) rfl

/-- C7: an execute or get_http_access call on a capability with
requiresReason set and no reason supplied fails with the requires-a-reason
error before any session is created (the session table is returned
unchanged) and before any secret or upstream call is used (the outcome is
the same constant for every upstream behavior). -/
theorem c7_requires_reason_rejected (opts : ServerOptions)
    (upstream : Session → ProxyRequest → Except String ProxyResponse)
    (store : SessionStore) (now : Nat) (freshId : String) (args : ToolArgs)
    (cap : Capability)
    (hfind : opts.capabilities.find? (fun c => c.name == args.capability) = some cap)
    (hreq : cap.requiresReason = true) (hreason : args.reason = none) :
    callToolHandler opts upstream store now freshId "execute" args =
      ((⟨.errorMsg ("Capability \"" ++ args.capability ++ "\" requires a reason"), true⟩ : ToolResult), store) ∧
    callToolHandler opts upstream store now freshId "get_http_access" args =
      ((⟨.errorMsg ("Capability \"" ++ args.capability ++ "\" requires a reason"), true⟩ : ToolResult), store) := by
  have hcond : (cap.requiresReason && jsFalsy args.reason) = true := by
    rw [hreq, hreason]
    rfl
  constructor <;> simp [callToolHandler, callToolInner, hfind, hcond]

theorem c7_requires_reason_rejected_witness :
    callToolHandler
        (⟨[⟨"pay", "stripe", "1h", false, true⟩], [], "http://localhost:9119"⟩ : ServerOptions)
        (fun _ _ => Except.ok (⟨200, "ok"⟩ : ProxyResponse)) [] 0 "jnee_sess_w"
        "execute"
        (⟨"pay", "GET", "/v1/balance", none, [], none⟩ : ToolArgs) =
      ((⟨.errorMsg ("Capability \"" ++ "pay" ++ "\" requires a reason"), true⟩ : ToolResult), []) :=
  (c7_requires_reason_rejected
    (⟨[⟨"pay", "stripe", "1h", false, true⟩], [], "http://localhost:9119"⟩ : ServerOptions)
    (fun _ _ => Except.ok (⟨200, "ok"⟩ : ProxyResponse)) [] 0 "jnee_sess_w"
    (⟨"pay", "GET", "/v1/balance", none, [], none⟩ : ToolArgs)
    (⟨"pay", "stripe", "1h", false, true⟩ : Capability)
    (by decide) rfl rfl).1

/-- C2: the CallTool reply is computed without reading the services map,
where all configured secret material (auth key, apiKey, apiSecret,
passphrase) lives: replacing the whole map changes nothing in the reply;
moreover a granted execute reply carries exactly the upstream status and
body, and a granted get_http_access reply carries exactly the proxy URL,
an Authorization value bearing the session id, and the expiry. -/
theorem c2_reply_excludes_secret_material
    (caps : List Capability) (svcs1 svcs2 : List (String × ServiceConfig)) (purl : String)
    (upstream : Session → ProxyRequest → Except String ProxyResponse)
    (store : SessionStore) (now : Nat) (freshId : String) (toolName : String) (args : ToolArgs) :
    callToolHandler (⟨caps, svcs1, purl⟩ : ServerOptions) upstream store now freshId toolName args =
      callToolHandler (⟨caps, svcs2, purl⟩ : ServerOptions) upstream store now freshId toolName args ∧
    (∀ (cap : Capability) (ttlSeconds : Nat) (resp : ProxyResponse),
      caps.find? (fun c => c.name == args.capability) = some cap →
      (cap.requiresReason && jsFalsy args.reason) = false →
      parseTTL cap.ttl = some ttlSeconds →
      upstream (createSession store freshId now cap.name cap.service ttlSeconds args.reason).1
          (⟨cap.service, args.path, args.method, args.headers, args.body⟩ : ProxyRequest) = .ok resp →
      (callToolHandler (⟨caps, svcs1, purl⟩ : ServerOptions) upstream store now freshId "execute" args).1 =
        (⟨.execResult resp.statusCode resp.body, false⟩ : ToolResult)) ∧
    (∀ (cap : Capability) (ttlSeconds : Nat),
      caps.find? (fun c => c.name == args.capability) = some cap →
      (cap.requiresReason && jsFalsy args.reason) = false →
      parseTTL cap.ttl = some ttlSeconds →
      (callToolHandler (⟨caps, svcs1, purl⟩ : ServerOptions) upstream store now freshId "get_http_access" args).1 =
        (⟨.httpAccess (purl ++ "/" ++ cap.service) ("Bearer " ++ freshId) (now + ttlSeconds * 1000), false⟩ : ToolResult)) := by
  refine ⟨rfl, ?_, ?_⟩
  · intro cap ttlSeconds resp hfind hnr httl hup
    simp [callToolHandler, callToolInner, hfind, hnr, httl, hup]
  · intro cap ttlSeconds hfind hnr httl
    simp [callToolHandler, callToolInner, hfind, hnr, httl, createSession]

theorem c2_reply_excludes_secret_material_witness :
    (callToolHandler (⟨[⟨"read", "github", "1h", true, false⟩], [("github", ⟨"https://api.github.com", ⟨"bearer", some "ghp_secret_A", none, none, none, []⟩⟩)], "http://localhost:9119"⟩ : ServerOptions) (fun _ _ => Except.ok (⟨200, "ok"⟩ : ProxyResponse)) [] 0 "jnee_sess_c" "get_http_access" (⟨"read", "GET", "/x", none, [], none⟩ : ToolArgs)).1 =
      (⟨.httpAccess ("http://localhost:9119" ++ "/" ++ "github") ("Bearer " ++ "jnee_sess_c") (0 + 3600 * 1000), false⟩ : ToolResult) :=
  (c2_reply_excludes_secret_material [⟨"read", "github", "1h", true, false⟩]
    [("github", ⟨"https://api.github.com", ⟨"bearer", some "ghp_secret_A", none, none, none, []⟩⟩)]
    [("github", ⟨"https://api.github.com", ⟨"bearer", some "ghp_secret_B", none, none, none, []⟩⟩)]
    "http://localhost:9119" (fun _ _ => Except.ok (⟨200, "ok"⟩ : ProxyResponse)) [] 0 "jnee_sess_c"
    "get_http_access" (⟨"read", "GET", "/x", none, [], none⟩ : ToolArgs)).2.2
    (⟨"read", "github", "1h", true, false⟩ : Capability) 3600 (by decide) (by decide) (by decide)

/-- C10: the CallTool handler is a total function of its inputs whose
result is flagged isError exactly when its payload is the error object,
and each of the four failure modes, unknown tool, unknown capability,
missing required reason, and unparsable TTL, resolves to the error object
carrying that message with the session table unchanged. -/
theorem c10_handler_error_encoding (opts : ServerOptions)
    (upstream : Session → ProxyRequest → Except String ProxyResponse)
    (store : SessionStore) (now : Nat) (freshId : String) (toolName : String) (args : ToolArgs) :
    ((callToolHandler opts upstream store now freshId toolName args).1.isError = true ↔
      ∃ m, (callToolHandler opts upstream store now freshId toolName args).1.payload = .errorMsg m) ∧
    (toolName ≠ "list_services" → toolName ≠ "execute" → toolName ≠ "get_http_access" →
      callToolHandler opts upstream store now freshId toolName args =
        ((⟨.errorMsg ("Unknown tool: " ++ toolName), true⟩ : ToolResult), store)) ∧
    (opts.capabilities.find? (fun c => c.name == args.capability) = none →
      callToolHandler opts upstream store now freshId "execute" args =
        ((⟨.errorMsg ("Unknown capability: " ++ args.capability), true⟩ : ToolResult), store)) ∧
    (∀ cap : Capability, opts.capabilities.find? (fun c => c.name == args.capability) = some cap →
      (cap.requiresReason && jsFalsy args.reason) = true →
      callToolHandler opts upstream store now freshId "execute" args =
        ((⟨.errorMsg ("Capability \"" ++ args.capability ++ "\" requires a reason"), true⟩ : ToolResult), store)) ∧
    (∀ cap : Capability, opts.capabilities.find? (fun c => c.name == args.capability) = some cap →
      (cap.requiresReason && jsFalsy args.reason) = false →
      parseTTL cap.ttl = none →
      callToolHandler opts upstream store now freshId "execute" args =
        ((⟨.errorMsg ("Invalid TTL format: " ++ cap.ttl), true⟩ : ToolResult), store)) := by
  refine ⟨?_, ?_, ?_, ?_, ?_⟩
  · rcases hin : callToolInner opts upstream store now freshId toolName args with ⟨res, st2⟩
    cases res with
    | ok p =>
      have hne := callToolInner_ok_not_error opts upstream store now freshId toolName args p st2 hin
      simp only [callToolHandler, hin]
      constructor
      · intro hfalse
        cases hfalse
      · rintro ⟨m, hm⟩
        exact absurd hm (hne m)
    | error e =>
      simp only [callToolHandler, hin]
      exact ⟨fun _ => ⟨e, rfl⟩, fun _ => trivial⟩
  · intro h1 h2 h3
    simp [callToolHandler, callToolInner, h1, h2, h3]
  · intro hfind
    simp [callToolHandler, callToolInner, hfind]
  · intro cap hfind hcond
    simp [callToolHandler, callToolInner, hfind, hcond]
  · intro cap hfind hcond httl
    simp [callToolHandler, callToolInner, hfind, hcond, httl]

theorem c10_handler_error_encoding_witness :
    callToolHandler (⟨[], [], "p"⟩ : ServerOptions)
        (fun _ _ => Except.ok (⟨200, "ok"⟩ : ProxyResponse)) [] 0 "id1" "unknown_tool"
        (⟨"c", "GET", "/x", none, [], none⟩ : ToolArgs) =
      ((⟨.errorMsg ("Unknown tool: " ++ "unknown_tool"), true⟩ : ToolResult), []) :=
  (c10_handler_error_encoding (⟨[], [], "p"⟩ : ServerOptions)
    (fun _ _ => Except.ok (⟨200, "ok"⟩ : ProxyResponse)) [] 0 "id1" "unknown_tool"
    (⟨"c", "GET", "/x", none, [], none⟩ : ToolArgs)).2.1
    (by decide) (by decide) (by decide)

/-- C1: rule evaluation permits a request exactly when the first rule in
declared order whose method and path patterns match the candidate is
tagged allow; with no matching rule the verdict is deny; and on a deny
verdict the dispatcher does not attempt the network call and produces no
response. -/
theorem c1_policy_first_match_wins (rules : List Rule) (method path : String) :
    (evaluateRules rules method path = Verdict.allow ↔
      ∃ pre r post, rules = pre ++ r :: post ∧
        (∀ r2 ∈ pre, ruleMatches r2 method path = false) ∧
        ruleMatches r method path = true ∧ r.effect = Verdict.allow) ∧
    ((∀ r ∈ rules, ruleMatches r method path = false) →
      evaluateRules rules method path = Verdict.deny) ∧
    (∀ call : Unit → ProxyResponse, evaluateRules rules method path = Verdict.deny →
      (executeWithPolicy rules method path call).attempted = false ∧
      (executeWithPolicy rules method path call).response = none) := by
  refine ⟨?_, ?_, ?_⟩
  · unfold evaluateRules
    cases hf : rules.find? (fun r => ruleMatches r method path) with
    | none =>
      simp only []
      constructor
      · intro hcontra
        cases hcontra
      · rintro ⟨pre, r, post, heq, hpre, hr, hal⟩
        have hmem : r ∈ rules := by
          rw [heq]
          exact List.mem_append_right _ (List.mem_cons_self _ _)
        have := List.find?_eq_none.mp hf r hmem
        exact absurd hr this
    | some r0 =>
      simp only []
      constructor
      · intro heff
        obtain ⟨pre, post, heq, hpre, hr⟩ :=
          (find?_eq_some_first (fun r => ruleMatches r method path) rules r0).mp hf
        exact ⟨pre, r0, post, heq, hpre, hr, heff⟩
      · rintro ⟨pre, r, post, heq, hpre, hr, hal⟩
        have hfr : rules.find? (fun r => ruleMatches r method path) = some r :=
          (find?_eq_some_first (fun r => ruleMatches r method path) rules r).mpr
            ⟨pre, post, heq, hpre, hr⟩
        rw [hf] at hfr
        injection hfr with hfr
        rw [hfr]
        exact hal
  · intro hall
    unfold evaluateRules
    have hnone : rules.find? (fun r => ruleMatches r method path) = none :=
      List.find?_eq_none.mpr (fun x hx => by rw [hall x hx]; exact Bool.false_ne_true)
    rw [hnone]
  · intro call hden
    unfold executeWithPolicy
    rw [hden]
    exact ⟨rfl, rfl⟩

theorem c1_policy_first_match_wins_witness :
    (executeWithPolicy [⟨"GET", "*", Verdict.allow⟩, ⟨"POST", "*", Verdict.deny⟩] "POST" "/x"
      (fun _ => (⟨200, "ok"⟩ : ProxyResponse))).attempted = false ∧
    (executeWithPolicy [⟨"GET", "*", Verdict.allow⟩, ⟨"POST", "*", Verdict.deny⟩] "POST" "/x"
      (fun _ => (⟨200, "ok"⟩ : ProxyResponse))).response = none :=
  (c1_policy_first_match_wins [⟨"GET", "*", Verdict.allow⟩, ⟨"POST", "*", Verdict.deny⟩]
    "POST" "/x").2.2 (fun _ => (⟨200, "ok"⟩ : ProxyResponse)) (by decide)

end Janee
